import Mathlib

/-!
# Verification of the RoopVana backend admission-control and credit-ledger core

Shallow embedding of the repository's credit ledger (Firestore-backed
`userCreditLimiter` / `refundUserCredit` / `deductUserCredit`), the bounded
concurrency FIFO queue (`GeminiQueue`), the credit-gated generation route
(`POST /api/generate`), and the Gemini image-generation fallback
(`generateImage`).  Firestore documents are modelled as `Option Account`
(`none` = the document does not exist); a Firestore transaction is a pure
function from the stored document to the new document plus the value the
transaction returns; JavaScript numbers are modelled as `Int`.
-/

set_option autoImplicit false

namespace RoopVana

/-! ## Data model -/

/-- A `userUsage` document.  The code always writes both numeric fields when it
creates a document, so both are modelled as present. -/
structure Account where
  credits : Int
  totalGenerations : Int
  deriving Repr, DecidableEq

/-- JavaScript `x || d` on numbers: `x` is falsy exactly when it is `0`. -/
def jsOr (x d : Int) : Int := if x = 0 then d else x

/-- The value returned by the `runTransaction` callback in `userCreditLimiter`
(src/unnamed/part_002): `{ success, credits }`. -/
structure ReserveResult where
  success : Bool
  credits : Int
  deriving Repr, DecidableEq

/-! ## Credit ledger (src/unnamed/part_002 and src/unnamed/part_004) -/

/-- The body of the Firestore transaction in `userCreditLimiter`
(src/unnamed/part_002 lines 69–99): read the `userUsage` doc; if absent,
create it with 0 credits and report no credits; if `credits <= 0`, report no
credits with no mutation; otherwise deduct 1 credit, increment
`totalGenerations`, and report success with the post-decrement balance. -/
def reserveTx (store : Option Account) : Option Account × ReserveResult :=
  match store with
  | none => (some { credits := 0, totalGenerations := 0 }, { success := false, credits := 0 })
  | some data =>
      let currentCredits := data.credits
      if currentCredits ≤ 0 then
        (some data, { success := false, credits := 0 })
      else
        let newCredits := currentCredits - 1
        (some { credits := newCredits, totalGenerations := jsOr data.totalGenerations 0 + 1 },
         { success := true, credits := newCredits })

/-- What the `userCreditLimiter` middleware does with the transaction outcome:
either respond 429 (request rejected) or call `next()` with
`req.currentCredits` attached. -/
inductive LimiterOutcome where
  | reject (statusCode : Int) (credits : Int)
  | proceed (currentCredits : Int)
  deriving Repr, DecidableEq

/-- The `userCreditLimiter` middleware of src/unnamed/part_002 lines 66–120,
for an authenticated user.  `storeFails = true` models the Firestore
transaction throwing: the `catch` block attaches `currentCredits = -1` and
calls `next()` (fail open), leaving the store untouched. -/
def userCreditLimiter (store : Option Account) (storeFails : Bool) :
    Option Account × LimiterOutcome :=
  if storeFails then
    (store, .proceed (-1))
  else
    let res := reserveTx store
    if res.2.success then
      (res.1, .proceed res.2.credits)
    else
      (res.1, .reject 429 0)

/-- `refundUserCredit` (src/unnamed/part_002 lines 128–139): a Firestore
`update` with `FieldValue.increment(1)` on `credits` and
`FieldValue.increment(-1)` on `totalGenerations`.  `update` on a missing
document throws; the surrounding `catch` swallows the error, so the store is
unchanged in that case. -/
def refundUserCredit (store : Option Account) : Option Account :=
  match store with
  | none => none
  | some a => some { credits := a.credits + 1, totalGenerations := a.totalGenerations - 1 }

/-- `reserveN n store` runs `n` serialized `reserveTx` transactions on the
same account and returns the final store together with how many of the calls
observed `success = true`. -/
def reserveN : Nat → Option Account → Option Account × Nat
  | 0, store => (store, 0)
  | n + 1, store =>
      let first := reserveTx store
      let rest := reserveN n first.1
      (rest.1, (if first.2.success then 1 else 0) + rest.2)

/-- The check-only `userCreditLimiter` of src/unnamed/part_004 lines 40–95
(this is the version the `src/src/routes/generate.ts` credit-gated routes
import, since they also import `deductUserCredit` from the same module):
reads the document (creating it with 0 credits if absent) and rejects iff the
balance read is `<= 0`; it performs no deduction. -/
def checkCreditLimiter (store : Option Account) : Option Account × LimiterOutcome :=
  match store with
  | none =>
      (some { credits := 0, totalGenerations := 0 }, .reject 429 0)
  | some a =>
      if a.credits ≤ 0 then (some a, .reject 429 0)
      else (some a, .proceed a.credits)

/-- `deductUserCredit` (src/unnamed/part_004 lines 101–120): if the document
exists, set `credits` to `max 0 (credits - 1)`, bump `totalGenerations`, and
return the new balance; if it does not exist, return 0 without creating it. -/
def deductUserCredit (store : Option Account) : Option Account × Int :=
  match store with
  | none => (none, 0)
  | some a =>
      let newCredits := max 0 (a.credits - 1)
      (some { credits := newCredits, totalGenerations := jsOr a.totalGenerations 0 + 1 },
       newCredits)

/-!
## The GeminiQueue (src/src/services/geminiQueue.ts)

State machine model.  `running` holds the ids of tasks whose `execute` has
been entered and not yet finished (`activeCount` is its length), `queue` the
FIFO wait list, `started` the history of task starts in order, `results` the
history of settled handles `(task id, fulfilled?)`.  Ids are assigned in
submission order by `nextId`.  Queue-state transitions are serialized in the
source (synchronous sections of `enqueue`/`execute`/`processNext`), so each
is one atomic step here.
-/

structure QState where
  maxConcurrent : Nat
  running : List Nat
  queue : List Nat
  started : List Nat
  results : List (Nat × Bool)
  nextId : Nat
  deriving Repr, DecidableEq

def QState.activeCount (s : QState) : Nat := s.running.length

def QState.queuedCount (s : QState) : Nat := s.queue.length

/-- A fresh queue, as built by the `GeminiQueue` constructor with
`config.geminiMaxConcurrent = k`. -/
def initQ (k : Nat) : QState :=
  { maxConcurrent := k, running := [], queue := [], started := [], results := [], nextId := 0 }

/-- `enqueue` (geminiQueue.ts lines 46–58): if `activeCount < maxConcurrent`
the task starts immediately (`execute` increments `activeCount` before any
await); otherwise it is pushed on the tail of the wait list. -/
def submit (s : QState) : QState :=
  if s.activeCount < s.maxConcurrent then
    { s with running := s.running ++ [s.nextId],
             started := s.started ++ [s.nextId],
             nextId := s.nextId + 1 }
  else
    { s with queue := s.queue ++ [s.nextId], nextId := s.nextId + 1 }

/-- Completion of a running task `i` with outcome `ok` (geminiQueue.ts lines
63–86): the handle of `i` settles with the task's own outcome (the `finally`
block does not intercept the value or the rejection), `activeCount` is
decremented, and `processNext` shifts the head of the wait list into
execution when the list is non-empty.  The decrement and the dequeue are one
synchronous section, hence one step. -/
def finishTask (s : QState) (i : Nat) (ok : Bool) : QState :=
  match s.queue with
  | [] =>
      { s with running := s.running.erase i, results := s.results ++ [(i, ok)] }
  | next :: rest =>
      { s with running := s.running.erase i ++ [next],
               queue := rest,
               started := s.started ++ [next],
               results := s.results ++ [(i, ok)] }

inductive QStep : QState → QState → Prop where
  | submit (s : QState) : QStep s (submit s)
  | finish (s : QState) (i : Nat) (ok : Bool) : i ∈ s.running → QStep s (finishTask s i ok)

inductive QReachable (k : Nat) : QState → Prop where
  | init : QReachable k (initQ k)
  | step {s t : QState} : QReachable k s → QStep s t → QReachable k t

/-- The inductive invariant of the queue: the cap is respected, the wait list
is non-empty only when all slots are busy, and the start history followed by
the wait list is exactly the submission order. -/
structure QInv (k : Nat) (s : QState) : Prop where
  max_eq : s.maxConcurrent = k
  active_le : s.activeCount ≤ k
  queue_full : s.queue ≠ [] → s.activeCount = k
  order : s.started ++ s.queue = List.range s.nextId

/-- `m` back-to-back submissions (no completions in between): `submitN m s`
is the state after `submit` has run `m` times. -/
def submitN : Nat → QState → QState
  | 0, s => s
  | n + 1, s => submit (submitN n s)

/-!
## The generation route (src/src/routes/generate.ts, POST /api/generate at
lines 302–373 of the file as stored)

The route runs `userCreditLimiter` (the check-only version it imports), then
the `try` block: translation / prompt improvement / `generateImage`
(abstracted into one opaque outcome `genOutcome`), then on success
`deductUserCredit` followed by the JSON response, and on any thrown error the
`catch` block rethrows an `AppError` — it contains no refund call.
`trace` records the externally visible steps in execution order.
-/

inductive GenEvent where
  | creditCheck
  | generateWork
  | deduct
  | refund
  | catchFailure
  deriving Repr, DecidableEq

structure RouteRun where
  store : Option Account
  trace : List GenEvent
  result : Except String (String × Int)

/-- The credit-gated `POST /api/generate` handler pipeline: middleware
(check-only limiter), the generation work, deduction after success, and the
catch block on failure. -/
def postGenerate (store : Option Account) (genOutcome : Except String String) : RouteRun :=
  match checkCreditLimiter store with
  | (store1, .reject _ _) =>
      { store := store1, trace := [.creditCheck], result := .error "No Credits" }
  | (store1, .proceed _) =>
      match genOutcome with
      | .error e =>
          { store := store1,
            trace := [.creditCheck, .generateWork, .catchFailure],
            result := .error e }
      | .ok url =>
          let d := deductUserCredit store1
          { store := d.1,
            trace := [.creditCheck, .generateWork, .deduct],
            result := .ok (url, d.2) }

/-!
## generateImage (src/unnamed/part_000 lines 23–84, 205–208)

The provider interaction inside the `try` block of `generateImage` can
reject, return a response without candidates or content parts, or return a
list of parts each optionally carrying inline image data.
-/

inductive ProviderOutcome where
  | threw
  | response (parts : Option (List (Option String)))
  deriving Repr, DecidableEq

/-- The `try` block of `generateImage`: throws when the provider call
rejects, when the response has no candidates or no content parts, or when no
part carries inline data; otherwise returns the base64 payload of the first
part that does. -/
def generateImageBody (o : ProviderOutcome) : Except String String :=
  match o with
  | .threw => .error "provider call rejected"
  | .response none => .error "Invalid response structure"
  | .response (some parts) =>
      match parts.filterMap id with
      | [] => .error "No image data in response"
      | d :: _ => .ok d

/-- `generateMockImage` (src/unnamed/part_000 lines 205–208). -/
def mockImageUrl (seed : Nat) : String :=
  "https://source.unsplash.com/800x800/?fashion,clothing," ++ toString seed

/-- `generateImage` as its callers see it: the whole body is wrapped in
`try/catch` whose `catch` returns a mock image URL, so the function returns
normally on every path — an `Except.error` would mean its promise rejected. -/
def generateImage (o : ProviderOutcome) (seed : Nat) : Except String String :=
  match generateImageBody o with
  | .ok d => .ok ("data:image/png;base64," ++ d)
  | .error _ => .ok (mockImageUrl seed)

/-! ## Daily top-up -/

structure TopUpResult where
  awarded : Int
  newBalance : Int
  capped : Bool
  deriving Repr, DecidableEq

/-- Modelled from the spec: the repository sources under `src/` contain no
daily top-up implementation (no `lastCreditRefresh`, `dailyCreditIncrement`
or `maxCreditsPerUser` occurs anywhere in the code).  This definition follows
§4.1 `topUp` of the specification: exempt accounts and evaluations within 24
hours of `lastCreditRefresh` are a no-op returning `null`; otherwise, a
balance at or above the cap awards 0 with `capped = true`, and any other
balance is awarded `min increment (cap - credits)` with `capped` true iff the
award fell short of `increment`. -/
def topUp (exemptFromPolicy : Bool) (hoursSinceRefresh : Nat)
    (credits increment cap : Int) : Option TopUpResult :=
  if exemptFromPolicy then none
  else if hoursSinceRefresh < 24 then none
  else if cap ≤ credits then
    some { awarded := 0, newBalance := credits, capped := true }
  else
    let award := min increment (cap - credits)
    some { awarded := award, newBalance := credits + award,
           capped := decide (award < increment) }

/-- A concrete queue state used to exercise task completion: capacity 1, one
running task (id 0), one queued task (id 1). -/
def sampleQ : QState :=
  { maxConcurrent := 1, running := [0], queue := [1], started := [0],
    results := [], nextId := 2 }

/-! ## Helper lemmas -/

theorem jsOr_zero (x : Int) : jsOr x 0 = x := by
  unfold jsOr; split <;> simp_all

/-- Granted-call count of `reserveN` on an existing account: exactly
`min n credits.toNat` calls succeed. -/
theorem reserveN_count (n : Nat) :
    ∀ (c g : Int), 0 ≤ c → (reserveN n (some { credits := c, totalGenerations := g })).2
      = min n c.toNat := by
  induction n with
  | zero => intro c g _; simp [reserveN]
  | succ n ih =>
      intro c g hc
      by_cases h : c ≤ 0
      · have hc0 : c = 0 := le_antisymm h hc
        subst hc0
        simp [reserveN, reserveTx, ih 0 g le_rfl]
      · push_neg at h
        have h1 : ¬ c ≤ 0 := not_le.mpr h
        have ihc := ih (c - 1) (jsOr g 0 + 1) (by omega)
        simp only [reserveN, reserveTx, h1, if_false, if_true]
        simp only [ihc]
        have htoNat : (c - 1).toNat = c.toNat - 1 := by omega
        have hpos : 1 ≤ c.toNat := by omega
        simp only [htoNat]
        omega

theorem submit_of_lt {s : QState} (hc : s.activeCount < s.maxConcurrent) :
    submit s = { s with running := s.running ++ [s.nextId],
                        started := s.started ++ [s.nextId],
                        nextId := s.nextId + 1 } := by
  unfold submit
  rw [if_pos hc]

theorem submit_of_ge {s : QState} (hc : ¬ s.activeCount < s.maxConcurrent) :
    submit s = { s with queue := s.queue ++ [s.nextId], nextId := s.nextId + 1 } := by
  unfold submit
  rw [if_neg hc]

theorem finishTask_of_nil {s : QState} (i : Nat) (ok : Bool) (hq : s.queue = []) :
    finishTask s i ok
      = { s with running := s.running.erase i, results := s.results ++ [(i, ok)] } := by
  unfold finishTask
  rw [hq]

theorem finishTask_of_cons {s : QState} (i : Nat) (ok : Bool) {next : Nat} {rest : List Nat}
    (hq : s.queue = next :: rest) :
    finishTask s i ok
      = { s with running := s.running.erase i ++ [next],
                 queue := rest,
                 started := s.started ++ [next],
                 results := s.results ++ [(i, ok)] } := by
  unfold finishTask
  rw [hq]

theorem qinv_init (k : Nat) : QInv k (initQ k) := by
  refine ⟨rfl, by simp [initQ, QState.activeCount], by simp [initQ], by simp [initQ]⟩

theorem qinv_submit {k : Nat} {s : QState} (h : QInv k s) : QInv k (submit s) := by
  by_cases hc : s.activeCount < s.maxConcurrent
  · have hq : s.queue = [] := by
      by_contra hne
      have hfull := h.queue_full hne
      rw [h.max_eq] at hc
      omega
    have hck : s.running.length < k := by
      rw [h.max_eq] at hc
      simpa [QState.activeCount] using hc
    have hord : s.started = List.range s.nextId := by
      have := h.order
      rwa [hq, List.append_nil] at this
    rw [submit_of_lt hc]
    refine ⟨h.max_eq, ?_, ?_, ?_⟩
    · simp only [QState.activeCount, List.length_append, List.length_cons, List.length_nil]
      omega
    · intro hne
      exact absurd hq hne
    · simp [hq, List.range_succ, hord]
  · have hak : s.running.length = k := by
      rw [h.max_eq] at hc
      have halep := h.active_le
      simp only [QState.activeCount] at hc halep
      omega
    rw [submit_of_ge hc]
    refine ⟨h.max_eq, ?_, ?_, ?_⟩
    · exact h.active_le
    · intro _
      exact hak
    · simp only [List.range_succ, ← h.order, List.append_assoc]

theorem qinv_finish {k : Nat} {s : QState} {i : Nat} {ok : Bool}
    (h : QInv k s) (hi : i ∈ s.running) : QInv k (finishTask s i ok) := by
  have herase : (s.running.erase i).length = s.running.length - 1 :=
    List.length_erase_of_mem hi
  rcases hq : s.queue with _ | ⟨next, rest⟩
  · rw [finishTask_of_nil i ok hq]
    refine ⟨h.max_eq, ?_, ?_, ?_⟩
    · simp only [QState.activeCount, herase]
      have := h.active_le
      simp only [QState.activeCount] at this
      omega
    · intro hne
      exact absurd hq hne
    · exact h.order
  · have hfull : s.running.length = k := by
      have := h.queue_full (by rw [hq]; simp)
      simpa [QState.activeCount] using this
    have hpos : 1 ≤ s.running.length := List.length_pos.mpr (List.ne_nil_of_mem hi)
    rw [finishTask_of_cons i ok hq]
    refine ⟨h.max_eq, ?_, ?_, ?_⟩
    · simp only [QState.activeCount, List.length_append, herase, List.length_cons,
        List.length_nil]
      omega
    · intro _
      simp only [QState.activeCount, List.length_append, herase, List.length_cons,
        List.length_nil]
      omega
    · have hord := h.order
      rw [hq] at hord
      simp only [← hord, List.append_assoc]
      simp

theorem qinv_reachable {k : Nat} {s : QState} (h : QReachable k s) : QInv k s := by
  induction h with
  | init => exact qinv_init k
  | step _ hstep ih =>
      cases hstep with
      | submit => exact qinv_submit ih
      | finish i ok hi => exact qinv_finish ih hi

theorem submitN_counts (k : Nat) (m : Nat) :
    (submitN m (initQ k)).activeCount = min m k ∧
      (submitN m (initQ k)).queuedCount = m - k ∧
      (submitN m (initQ k)).maxConcurrent = k := by
  induction m with
  | zero => simp [submitN, initQ, QState.activeCount, QState.queuedCount]
  | succ n ih =>
      obtain ⟨ha, hq, hm⟩ := ih
      by_cases hc : (submitN n (initQ k)).activeCount < (submitN n (initQ k)).maxConcurrent
      · have hn : n < k := by rw [ha, hm] at hc; omega
        simp only [submitN, submit_of_lt hc]
        simp only [QState.activeCount, QState.queuedCount] at ha hq ⊢
        simp only [List.length_append, List.length_cons, List.length_nil]
        exact ⟨by omega, by omega, hm⟩
      · have hn : k ≤ n := by rw [ha, hm] at hc; omega
        simp only [submitN, submit_of_ge hc]
        simp only [QState.activeCount, QState.queuedCount] at ha hq ⊢
        simp only [List.length_append, List.length_cons, List.length_nil]
        exact ⟨by omega, by omega, hm⟩

/-! ## Claim theorems -/

/-- C1: No double-spend — for every starting balance `B ≥ 0` and every number
`N ≥ 1` of serialized `reserveOne` transactions on the same account, exactly
`min N B` of the calls observe `granted = true`; in particular with
`credits = 1` and `N ≥ 2` calls, exactly one call is granted. -/
theorem reserveOne_no_double_spend (B : Nat) (g : Int) (N : Nat) (hN : 1 ≤ N) :
    (reserveN N (some { credits := (B : Int), totalGenerations := g })).2 = min N B ∧
      (2 ≤ N → (reserveN N (some { credits := (1 : Int), totalGenerations := g })).2 = 1) := by
  constructor
  · have h := reserveN_count N (B : Int) g (Int.natCast_nonneg B)
    simpa using h
  · intro h2
    have h := reserveN_count N 1 g (by norm_num)
    rw [h]
    simp only [Int.toNat_one]
    omega

theorem reserveOne_no_double_spend_witness :
    (reserveN 3 (some { credits := ((2 : Nat) : Int), totalGenerations := 0 })).2 = min 3 2 ∧
      (2 ≤ 3 →
        (reserveN 3 (some { credits := (1 : Int), totalGenerations := 0 })).2 = 1) :=
  reserveOne_no_double_spend 2 0 3 (by norm_num)

/-- C2: the `reserveOne` contract — a single transaction creates an absent
account with `credits = 0` and is not granted; with `credits ≤ 0` it is not
granted, reports `remaining = 0` and mutates nothing; with `credits > 0` it
deducts exactly 1 credit, adds exactly 1 to `totalGenerations`, and is
granted with the post-decrement balance as `remaining`. -/
theorem reserveOne_contract (store : Option Account) :
    (store = none →
      reserveTx store = (some { credits := 0, totalGenerations := 0 },
        { success := false, credits := 0 })) ∧
    (∀ a, store = some a → a.credits ≤ 0 →
      reserveTx store = (some a, { success := false, credits := 0 })) ∧
    (∀ a, store = some a → 0 < a.credits →
      reserveTx store
        = (some { credits := a.credits - 1, totalGenerations := a.totalGenerations + 1 },
           { success := true, credits := a.credits - 1 })) := by
  refine ⟨?_, ?_, ?_⟩
  · rintro rfl
    rfl
  · rintro a rfl hle
    simp [reserveTx, hle]
  · rintro a rfl hpos
    simp [reserveTx, not_le.mpr hpos, jsOr_zero]

theorem reserveOne_contract_witness :
    reserveTx (some { credits := 2, totalGenerations := 5 })
      = (some { credits := 1, totalGenerations := 6 },
         { success := true, credits := 1 }) := by
  have h := (reserveOne_contract (some { credits := 2, totalGenerations := 5 })).2.2
    { credits := 2, totalGenerations := 5 } rfl (by norm_num)
  simpa using h

/-- C7: refund round-trip — `reserveOne` followed by `refundOne` on an
account with `credits = c > 0` and `totalGenerations = g` restores exactly
`credits = c, totalGenerations = g`; and `refundOne` on any existing account
adds exactly 1 to `credits` and subtracts exactly 1 from `totalGenerations`,
with no clamping below zero. -/
theorem refund_round_trip (c g : Int) (hc : 0 < c) :
    refundUserCredit (reserveTx (some { credits := c, totalGenerations := g })).1
      = some { credits := c, totalGenerations := g } ∧
    (∀ a : Account, refundUserCredit (some a)
      = some { credits := a.credits + 1, totalGenerations := a.totalGenerations - 1 }) := by
  constructor
  · simp only [reserveTx, not_le.mpr hc, if_false, refundUserCredit, jsOr_zero]
    norm_num
  · intro a
    rfl

theorem refund_round_trip_witness :
    refundUserCredit (reserveTx (some { credits := 2, totalGenerations := 7 })).1
      = some { credits := 2, totalGenerations := 7 } ∧
    (∀ a : Account, refundUserCredit (some a)
      = some { credits := a.credits + 1, totalGenerations := a.totalGenerations - 1 }) :=
  refund_round_trip 2 7 (by norm_num)

/-- C8: fail-open on store error — when the Firestore transaction inside
`reserveOne` throws, the middleware lets the request proceed (treated as
granted) and surfaces the sentinel `-1` as the remaining-credits value, for
every store content. -/
theorem reserveOne_fail_open (store : Option Account) :
    userCreditLimiter store true = (store, LimiterOutcome.proceed (-1)) := by
  simp [userCreditLimiter]

/-- C4: concurrency-cap invariant — in every reachable queue state with
`maxConcurrent = k ≥ 1`, `0 ≤ activeCount ≤ k`; and after `m > k`
simultaneous submissions of long-running tasks (no completions in between)
from a fresh queue, `activeCount = k` and `queuedCount = m - k`. -/
theorem queue_concurrency_cap (k m : Nat) (hk : 1 ≤ k) (s : QState)
    (hs : QReachable k s) (hm : k < m) :
    (0 ≤ s.activeCount ∧ s.activeCount ≤ k) ∧
      (submitN m (initQ k)).activeCount = k ∧
      (submitN m (initQ k)).queuedCount = m - k := by
  refine ⟨⟨Nat.zero_le _, (qinv_reachable hs).active_le⟩, ?_, (submitN_counts k m).2.1⟩
  rw [(submitN_counts k m).1]
  omega

theorem queue_concurrency_cap_witness :
    (0 ≤ (initQ 1).activeCount ∧ (initQ 1).activeCount ≤ 1) ∧
      (submitN 3 (initQ 1)).activeCount = 1 ∧
      (submitN 3 (initQ 1)).queuedCount = 3 - 1 :=
  queue_concurrency_cap 1 3 (by norm_num) (initQ 1) QReachable.init (by norm_num)

/-- C5: FIFO ordering — in every reachable queue state, the tasks started so
far are exactly the earliest-submitted tasks in submission order (ids are
assigned `0, 1, 2, …` in submission order, and the start history equals
`range` of its length, so no later-submitted task ever starts before an
earlier-submitted one); and whenever a task completes while the wait list is
non-empty, the head of the wait list is the task started next. -/
theorem queue_fifo_order (k : Nat) (s : QState) (hs : QReachable k s) :
    s.started = List.range s.started.length ∧
      (∀ i ok next rest, s.queue = next :: rest → i ∈ s.running →
        (finishTask s i ok).started = s.started ++ [next]) := by
  have hord := (qinv_reachable hs).order
  constructor
  · have hlen : s.started.length + s.queue.length = s.nextId := by
      have h := congrArg List.length hord
      simpa using h
    have h1 : s.started = List.range (min s.started.length s.nextId) := by
      conv_lhs => rw [← List.take_left s.started s.queue, hord, List.take_range]
    rw [min_eq_left (by omega : s.started.length ≤ s.nextId)] at h1
    exact h1
  · intro i ok next rest hq hi
    rw [finishTask_of_cons i ok hq]

theorem queue_fifo_order_witness :
    (initQ 2).started = List.range (initQ 2).started.length ∧
      (∀ i ok next rest, (initQ 2).queue = next :: rest → i ∈ (initQ 2).running →
        (finishTask (initQ 2) i ok).started = (initQ 2).started ++ [next]) :=
  queue_fifo_order 2 (initQ 2) QReachable.init

/-- C6: a failing task never blocks the queue — completing a running task
delivers the task's own outcome to its handle (`(i, ok)` is appended to the
settled-handle history, so a rejection propagates), the resulting queue state
is identical whether the task failed or succeeded, the slot is released
(`activeCount` drops by one when the wait list is empty), and when the wait
list is non-empty its head is started and `activeCount` is restored. -/
theorem queue_failure_releases_slot (s : QState) (i : Nat) (ok : Bool)
    (hi : i ∈ s.running) :
    (finishTask s i ok).results = s.results ++ [(i, ok)] ∧
    ((finishTask s i false).running = (finishTask s i true).running ∧
      (finishTask s i false).queue = (finishTask s i true).queue ∧
      (finishTask s i false).started = (finishTask s i true).started) ∧
    (s.queue = [] → (finishTask s i ok).activeCount = s.activeCount - 1) ∧
    (∀ next rest, s.queue = next :: rest →
      (finishTask s i ok).activeCount = s.activeCount ∧
      next ∈ (finishTask s i ok).running ∧
      (finishTask s i ok).queue = rest) := by
  have herase : (s.running.erase i).length = s.running.length - 1 :=
    List.length_erase_of_mem hi
  have hpos : 1 ≤ s.running.length := List.length_pos.mpr (List.ne_nil_of_mem hi)
  rcases hq : s.queue with _ | ⟨next, rest⟩
  · refine ⟨by rw [finishTask_of_nil i ok hq], ?_, ?_, ?_⟩
    · rw [finishTask_of_nil i false hq, finishTask_of_nil i true hq]
      exact ⟨rfl, rfl, rfl⟩
    · intro _
      rw [finishTask_of_nil i ok hq]
      simp only [QState.activeCount, herase]
    · intro next rest hq2
      exact absurd hq2 (by simp)
  · refine ⟨by rw [finishTask_of_cons i ok hq], ?_, ?_, ?_⟩
    · rw [finishTask_of_cons i false hq, finishTask_of_cons i true hq]
      exact ⟨rfl, rfl, rfl⟩
    · intro hnil
      exact absurd hnil (by simp)
    · intro next2 rest2 hq2
      cases hq2
      rw [finishTask_of_cons i ok hq]
      refine ⟨?_, ?_, rfl⟩
      · simp only [QState.activeCount, List.length_append, herase, List.length_cons,
          List.length_nil]
        omega
      · simp

theorem queue_failure_releases_slot_witness :
    (finishTask sampleQ 0 false).results = sampleQ.results ++ [(0, false)] ∧
    ((finishTask sampleQ 0 false).running = (finishTask sampleQ 0 true).running ∧
      (finishTask sampleQ 0 false).queue = (finishTask sampleQ 0 true).queue ∧
      (finishTask sampleQ 0 false).started = (finishTask sampleQ 0 true).started) ∧
    (sampleQ.queue = [] →
      (finishTask sampleQ 0 false).activeCount = sampleQ.activeCount - 1) ∧
    (∀ next rest, sampleQ.queue = next :: rest →
      (finishTask sampleQ 0 false).activeCount = sampleQ.activeCount ∧
      next ∈ (finishTask sampleQ 0 false).running ∧
      (finishTask sampleQ 0 false).queue = rest) :=
  queue_failure_releases_slot sampleQ 0 false (by simp [sampleQ])

/-- C3 counterexample: in the `POST /api/generate` handler, with an account
holding 3 credits, the successful run's trace is check → work → deduct, so
the deduction does NOT precede the generation work (its index in the trace is
not smaller), and on a failing run the failure is surfaced with no refund
event and in fact no ledger mutation at all. -/
theorem orchestrator_ordering_counterexample :
    ((postGenerate (some { credits := 3, totalGenerations := 0 }) (Except.ok "img")).trace
        = [GenEvent.creditCheck, GenEvent.generateWork, GenEvent.deduct]) ∧
    ¬ ((postGenerate (some { credits := 3, totalGenerations := 0 })
          (Except.ok "img")).trace.indexOf GenEvent.deduct
        < (postGenerate (some { credits := 3, totalGenerations := 0 })
            (Except.ok "img")).trace.indexOf GenEvent.generateWork) ∧
    ((postGenerate (some { credits := 3, totalGenerations := 0 })
        (Except.error "provider error")).trace
      = [GenEvent.creditCheck, GenEvent.generateWork, GenEvent.catchFailure]) ∧
    GenEvent.refund ∉ (postGenerate (some { credits := 3, totalGenerations := 0 })
        (Except.error "provider error")).trace := by
  decide

/-- C3 amended: the credit limiter only CHECKS the balance before the work
begins (a request that is not granted performs no generation), the deduction
happens via `deductUserCredit` only AFTER the generation work succeeds, and
when the work fails no refund is invoked — the account is untouched on the
failure path (so the balance trivially equals its pre-request value), and the
failure is surfaced to the caller. -/
theorem orchestrator_ordering_amended (store : Option Account) (a : Account)
    (hs : store = some a) (out : Except String String) :
    (a.credits ≤ 0 →
      (postGenerate store out).trace = [GenEvent.creditCheck] ∧
      (postGenerate store out).store = some a) ∧
    (0 < a.credits → ∀ e, out = Except.error e →
      (postGenerate store out).store = some a ∧
      (postGenerate store out).trace
        = [GenEvent.creditCheck, GenEvent.generateWork, GenEvent.catchFailure] ∧
      GenEvent.refund ∉ (postGenerate store out).trace ∧
      GenEvent.deduct ∉ (postGenerate store out).trace ∧
      (postGenerate store out).result = Except.error e) ∧
    (0 < a.credits → ∀ url, out = Except.ok url →
      (postGenerate store out).trace
        = [GenEvent.creditCheck, GenEvent.generateWork, GenEvent.deduct] ∧
      (postGenerate store out).store
        = some { credits := max 0 (a.credits - 1),
                 totalGenerations := a.totalGenerations + 1 } ∧
      (postGenerate store out).result = Except.ok (url, max 0 (a.credits - 1))) := by
  subst hs
  refine ⟨?_, ?_, ?_⟩
  · intro hle
    simp [postGenerate, checkCreditLimiter, hle]
  · rintro hpos e rfl
    simp [postGenerate, checkCreditLimiter, not_le.mpr hpos]
  · rintro hpos url rfl
    simp [postGenerate, checkCreditLimiter, not_le.mpr hpos, deductUserCredit, jsOr_zero]

theorem orchestrator_ordering_amended_witness :
    (postGenerate (some { credits := 2, totalGenerations := 0 })
        (Except.error "boom")).store = some { credits := 2, totalGenerations := 0 } ∧
    (postGenerate (some { credits := 2, totalGenerations := 0 })
        (Except.error "boom")).trace
      = [GenEvent.creditCheck, GenEvent.generateWork, GenEvent.catchFailure] ∧
    GenEvent.refund ∉ (postGenerate (some { credits := 2, totalGenerations := 0 })
        (Except.error "boom")).trace ∧
    GenEvent.deduct ∉ (postGenerate (some { credits := 2, totalGenerations := 0 })
        (Except.error "boom")).trace ∧
    (postGenerate (some { credits := 2, totalGenerations := 0 })
        (Except.error "boom")).result = Except.error "boom" :=
  (orchestrator_ordering_amended (some { credits := 2, totalGenerations := 0 })
    { credits := 2, totalGenerations := 0 } rfl (Except.error "boom")).2.1
    (by norm_num) "boom" rfl

/-- C9: daily top-up award formula (modelled from the spec, no top-up code
exists under src/) — for an eligible evaluation (not exempt, at least 24
hours elapsed): a balance at or above the cap awards 0 with `capped = true`;
otherwise exactly `min increment (cap - credits)` is added with `capped` true
iff the award is less than `increment`; concretely `credits = 8, cap = 10,
increment = 5` awards exactly 2, reaching balance 10 with `capped = true`. -/
theorem daily_topup_award (hours : Nat) (credits increment cap : Int)
    (hel : 24 ≤ hours) :
    (cap ≤ credits → topUp false hours credits increment cap
        = some { awarded := 0, newBalance := credits, capped := true }) ∧
    (credits < cap → topUp false hours credits increment cap
        = some { awarded := min increment (cap - credits),
                 newBalance := credits + min increment (cap - credits),
                 capped := decide (min increment (cap - credits) < increment) }) ∧
    topUp false 24 8 5 10 = some { awarded := 2, newBalance := 10, capped := true } := by
  have hnot : ¬ hours < 24 := by omega
  refine ⟨?_, ?_, by decide⟩
  · intro hge
    simp [topUp, hnot, hge]
  · intro hlt
    simp [topUp, hnot, not_le.mpr hlt]

theorem daily_topup_award_witness :
    topUp false 25 3 5 10
      = some { awarded := min 5 (10 - 3), newBalance := 3 + min 5 (10 - 3),
               capped := decide (min 5 (10 - 3) < 5) } :=
  (daily_topup_award 25 3 5 10 (by norm_num)).2.1 (by norm_num)

/-- C10: `generateImage` never rejects — whatever the provider outcome, the
function returns normally (any internal failure is caught and replaced by the
mock image URL), so a route fed by `generateImage` never reaches its catch
block: `catchFailure` is absent from the trace for every account state. -/
theorem generateImage_never_rejects (o : ProviderOutcome) (seed : Nat)
    (store : Option Account) :
    (∃ s, generateImage o seed = Except.ok s) ∧
    (∀ e, generateImageBody o = Except.error e →
      generateImage o seed = Except.ok (mockImageUrl seed)) ∧
    GenEvent.catchFailure ∉ (postGenerate store (generateImage o seed)).trace := by
  obtain ⟨s0, hok⟩ : ∃ s0, generateImage o seed = Except.ok s0 := by
    unfold generateImage
    cases h : generateImageBody o with
    | ok d => exact ⟨_, rfl⟩
    | error e => exact ⟨_, rfl⟩
  refine ⟨⟨s0, hok⟩, ?_, ?_⟩
  · intro e he
    unfold generateImage
    rw [he]
  · rw [hok]
    match store with
    | none => simp [postGenerate, checkCreditLimiter]
    | some a =>
        by_cases hle : a.credits ≤ 0
        · simp [postGenerate, checkCreditLimiter, hle]
        · simp [postGenerate, checkCreditLimiter, hle]

theorem generateImage_never_rejects_witness :
    generateImage ProviderOutcome.threw 7 = Except.ok (mockImageUrl 7) ∧
    GenEvent.catchFailure ∉ (postGenerate (some { credits := 1, totalGenerations := 0 })
        (generateImage ProviderOutcome.threw 7)).trace :=
  ⟨(generateImage_never_rejects ProviderOutcome.threw 7
      (some { credits := 1, totalGenerations := 0 })).2.1 "provider call rejected" rfl,
   (generateImage_never_rejects ProviderOutcome.threw 7
      (some { credits := 1, totalGenerations := 0 })).2.2⟩

end RoopVana
